import Mathlib

/-!
# Verification of the garden orchestrator core

Shallow embedding of the provider-resolution task, the test task, and the
`exec` plugin of the garden repository, together with theorems checking the
natural-language specification against the embedded code.

Sources embedded:
* `src/garden-service/src/tasks/resolve-provider.ts` (`ResolveProviderTask`,
  `getPluginBases`, `getPluginBaseNames`, and the appended test-task file with
  `TestTask`, `getTestTasks`, `getTestVersion`)
* the `exec` plugin (`configureExecModule`, `getExecModuleBuildStatus`,
  `buildExecModule`, `testExecModule`, `runExecTask`)
* the build-version file read/write helpers (modelled from the spec, the
  `vcs/vcs` module itself is not part of the sources).

Asynchronous handler invocations are embedded as explicit function arguments;
thrown exceptions become `Except GardenError`.
-/

namespace Garden

/-- Error taxonomy used by the embedded code (`../exceptions`). Each embedded
error carries its message string. -/
inductive GardenError where
  | configurationError (msg : String)
  | pluginError (msg : String)
  | runtimeError (msg : String)
  | testError (msg : String)
deriving Repr, DecidableEq

/-- Environment status returned by `getEnvironmentStatus` handlers:
`{ ready: bool, outputs: map }`. Outputs are kept as an association list. -/
structure EnvironmentStatus where
  ready : Bool
  outputs : List (String × String)
deriving Repr, DecidableEq

/-- Result shape of a `prepareEnvironment` handler: `{ status }`. -/
structure PrepareResult where
  status : EnvironmentStatus
deriving Repr, DecidableEq

/-- A provider configuration (`ProviderConfig`).  The `name` field identifies
the provider; `path` models the optional `path` key that the resolution code
omits before validation and re-assigns afterwards; all remaining keys are kept
as an uninterpreted association list. -/
structure ProviderConfig where
  name : String
  path : Option String := none
  extra : List (String × String) := []
deriving Repr, DecidableEq

/-- Embedding of `lodash.omit(config, "path")` on a provider config. -/
def omitPath (c : ProviderConfig) : ProviderConfig :=
  { c with path := none }

/-- A joi config schema, embedded by its observable behaviour through
`validateWithPath`: validation either fails with a `ConfigurationError` or
returns the validated (possibly transformed, e.g. default-applied) config. -/
structure Schema where
  validate : ProviderConfig → Except GardenError ProviderConfig

/-- `joi.object()`: the fallback schema used when a plugin declares no config
schema; it accepts any object unchanged. -/
def joiObjectSchema : Schema :=
  ⟨fun c => .ok c⟩

/-- A module config synthesized by a `configureProvider` handler; its contents
are irrelevant to the claims, only identity matters. -/
structure ModuleConfigRepr where
  name : String
deriving Repr, DecidableEq

/-- Output of a `configureProvider` handler: `{ config, moduleConfigs? }`. -/
structure ConfigureProviderOutput where
  config : ProviderConfig
  moduleConfigs : Option (List ModuleConfigRepr) := none

/-- Embedding of `GardenPlugin` as used by `resolve-provider.ts`: a name, an
optional `base` plugin name, declared plugin dependencies, an optional config
schema, and an optional `configureProvider` handler (from `plugin.handlers`).
Other handlers are passed to the embedded functions directly. -/
structure GardenPlugin where
  name : String
  base : Option String := none
  dependencies : List String := []
  configSchema : Option Schema := none
  configureProvider : Option (ProviderConfig → ConfigureProviderOutput) := none

/-- Lookup in a `PluginMap` (`keyBy(plugins, "name")`).  Plugin names are
unique in a loaded project, so first-match lookup coincides with the keyed
object built by `keyBy`. -/
def findPlugin (plugins : List GardenPlugin) (name : String) : Option GardenPlugin :=
  plugins.find? (fun p => p.name == name)

/--
Embedding of `getPluginBases` (resolve-provider.ts lines 224-236):

```
if (!plugin.base) { return [] }
const base = loadedPlugins[plugin.base]
if (!base) { throw new RuntimeError(...) }
return [base, ...getPluginBases(base, loadedPlugins)]
```

The TS recursion is unbounded; here it carries explicit fuel.  Under the
repository invariant that base chains are acyclic and every base is
registered, a chain visits each plugin at most once, so fuel
`loadedPlugins.length + 1` (see `getPluginBases` below) never runs out; fuel
exhaustion corresponds to the diverging TS recursion on a cyclic chain.
-/
def getPluginBasesFuel (loadedPlugins : List GardenPlugin) :
    Nat → GardenPlugin → Except GardenError (List GardenPlugin)
  | 0, plugin =>
    .error (.runtimeError s!"Cyclic base chain at plugin {plugin.name}")
  | Nat.succ fuel, plugin =>
    match plugin.base with
    | none => .ok []
    | some baseName =>
      match findPlugin loadedPlugins baseName with
      | none =>
        .error (.runtimeError
          s!"Unable to find base plugin {baseName} for plugin {plugin.name}")
      | some base => do
        let rest ← getPluginBasesFuel loadedPlugins fuel base
        pure (base :: rest)

/-- `getPluginBases` at the default fuel. -/
def getPluginBases (plugin : GardenPlugin) (loadedPlugins : List GardenPlugin) :
    Except GardenError (List GardenPlugin) :=
  getPluginBasesFuel loadedPlugins (loadedPlugins.length + 1) plugin

/--
Embedding of `getPluginBaseNames` (resolve-provider.ts lines 241-243):
`getPluginBases(loadedPlugins[name], loadedPlugins).map(p => p.name)`.
When `loadedPlugins[name]` is undefined the TS code throws a `TypeError`
dereferencing `plugin.base`; that is embedded as a `RuntimeError`.
-/
def getPluginBaseNames (name : String) (loadedPlugins : List GardenPlugin) :
    Except GardenError (List String) :=
  match findPlugin loadedPlugins name with
  | none => .error (.runtimeError s!"Unable to find plugin {name}")
  | some p => (getPluginBases p loadedPlugins).map (fun l => l.map (fun q => q.name))

namespace ResolveProviderTask

/-- The matching predicate applied to each raw provider config inside
`getDependencies` (resolve-provider.ts lines 62-64):
`c.name === depName || getPluginBaseNames(c.name, plugins).includes(depName)`.
The disjunction short-circuits, so the base-name resolution only runs (and can
only throw) when the name does not match directly. -/
def providerMatches (plugins : List GardenPlugin) (depName : String)
    (c : ProviderConfig) : Except GardenError Bool :=
  if c.name == depName then
    .ok true
  else do
    let baseNames ← getPluginBaseNames c.name plugins
    pure (baseNames.contains depName)

/-- The `rawProviderConfigs.filter(...)` step of `getDependencies`, with the
exception-throwing predicate sequenced left to right as in the source. -/
def matchedConfigs (plugins : List GardenPlugin) (depName : String) :
    List ProviderConfig → Except GardenError (List ProviderConfig)
  | [] => .ok []
  | c :: rest => do
    let m ← providerMatches plugins depName c
    let ms ← matchedConfigs plugins depName rest
    pure (if m then c :: ms else ms)

/-- The data of a `ResolveProviderTask` constructed by `getDependencies`:
the plugin looked up as `plugins[depName]` (which the source does not check
for existence), the matched raw config, and the inherited `forceInit` flag. -/
structure TaskRepr where
  plugin : Option GardenPlugin
  config : ProviderConfig
  forceInit : Bool

/-- The body of the `Bluebird.map` over dependency names in `getDependencies`
(resolve-provider.ts lines 60-86): filter the raw provider configs by
`providerMatches`; if none match, throw a `ConfigurationError`; otherwise
build one `ResolveProviderTask` per matched config, each with
`plugin = plugins[depName]`. -/
def dependencyTasksFor (plugins : List GardenPlugin) (rawConfigs : List ProviderConfig)
    (selfName : String) (forceInit : Bool) (depName : String) :
    Except GardenError (List TaskRepr) := do
  let matched ← matchedConfigs plugins depName rawConfigs
  if matched.length = 0 then
    .error (.configurationError
      (s!"Missing provider dependency {depName} in configuration for provider " ++
        s!"{selfName}. Are you missing a provider configuration?"))
  else
    pure (matched.map (fun config =>
      { plugin := findPlugin plugins depName, config := config, forceInit := forceInit }))

/--
Embedding of `ResolveProviderTask.getDependencies` (resolve-provider.ts lines
54-87).  The dependency names computed by `getAllProviderDependencyNames`
(declared plugin dependencies plus implicit template references) are taken as
the input `depNames`; the function flattens the per-dependency task lists.
-/
def getDependencies (plugins : List GardenPlugin) (rawConfigs : List ProviderConfig)
    (selfName : String) (forceInit : Bool) :
    List String → Except GardenError (List TaskRepr)
  | [] => .ok []
  | d :: ds => do
    let ts ← dependencyTasksFor plugins rawConfigs selfName forceInit d
    let rest ← getDependencies plugins rawConfigs selfName forceInit ds
    pure (ts ++ rest)

/-- Specification-side matching predicate for a configured provider against a
dependency name: its name equals the dependency name, or its plugin's base
chain (when it resolves) contains the dependency name.  `getDependencies` is
proved to select exactly the configs satisfying this predicate. -/
def matchesDep (plugins : List GardenPlugin) (depName : String)
    (c : ProviderConfig) : Bool :=
  c.name == depName ||
    (match getPluginBaseNames c.name plugins with
     | .ok ns => ns.contains depName
     | .error _ => false)

/--
Embedding of `ResolveProviderTask.ensurePrepared` (resolve-provider.ts lines
171-218).  The resolved `getEnvironmentStatus` handler is embedded by the
status value it returns (`statusHandler`), the resolved `prepareEnvironment`
handler as a function of the `force` flag and the current status
(`prepareHandler`).  The returned Bool records whether the `prepareEnvironment`
handler was invoked (the branch at line 188).

Source:
```
let status = await handler({ ctx, log: this.log })
if (this.forceInit || !status.ready) {
  const result = await prepareHandler({ ctx, log, force: this.forceInit, status })
  status = result.status
}
if (!status.ready) { throw new PluginError(...) }
return status
```
-/
def ensurePrepared (forceInit : Bool) (statusHandler : EnvironmentStatus)
    (prepareHandler : Bool → EnvironmentStatus → PrepareResult) :
    Except GardenError (EnvironmentStatus × Bool) :=
  let status := statusHandler
  if forceInit || !status.ready then
    let result := prepareHandler forceInit status
    let status := result.status
    if !status.ready then
      .error (.pluginError
        "Provider reports status as not ready and could not prepare the configured environment.")
    else
      .ok (status, true)
  else
    if !status.ready then
      .error (.pluginError
        "Provider reports status as not ready and could not prepare the configured environment.")
    else
      .ok (status, false)

/-- The `validateConfig` closure inside `ResolveProviderTask.process`
(resolve-provider.ts lines 101-110): validate the config minus its `path` key
against `this.plugin.configSchema || joi.object()`. -/
def validateConfig (plugin : GardenPlugin) (c : ProviderConfig) :
    Except GardenError ProviderConfig :=
  (plugin.configSchema.getD joiObjectSchema).validate (omitPath c)

/-- The base-schema validation loop of `ResolveProviderTask.process`
(resolve-provider.ts lines 146-161): for each base in chain order, skip it if
it declares no config schema, otherwise re-validate the config (minus `path`)
against the base's schema and continue with the validated output. -/
def validateAgainstBases :
    List GardenPlugin → ProviderConfig → Except GardenError ProviderConfig
  | [], c => .ok c
  | base :: rest, c =>
    match base.configSchema with
    | none => validateAgainstBases rest c
    | some s => do
      let c' ← s.validate (omitPath c)
      validateAgainstBases rest c'

/-- Sequential validation of a config against a list of schemas, each
validation's output feeding the next (`path` omitted before each validation
as in the base-validation loop).  This is the specification-side description
of the base-chain validation; `validateAgainstBases` is proved to equal it on
the schemas of the bases that declare one. -/
def foldSchemas : List Schema → ProviderConfig → Except GardenError ProviderConfig
  | [], c => .ok c
  | s :: rest, c => do
    let c' ← s.validate (omitPath c)
    foldSchemas rest c'

/-- The front of `ResolveProviderTask.process` (steps 2-3): validation of the
template-resolved config against the plugin's own schema, `path`
re-assignment, and the optional `configureProvider` round with its
re-validation against the same schema.  `process` is proved to run this
before any base-schema validation. -/
def configuredConfig (plugin : GardenPlugin) (resolvedConfig : ProviderConfig)
    (projectRoot : String) :
    Except GardenError (ProviderConfig × List ModuleConfigRepr) := do
  let c ← validateConfig plugin resolvedConfig
  let c := { c with path := some projectRoot }
  match plugin.configureProvider with
  | none => pure (c, [])
  | some handler => do
    let out := handler c
    let c' ← validateConfig plugin out.config
    pure ({ c' with path := some projectRoot }, out.moduleConfigs.getD [])

/-- The provider value published by `ResolveProviderTask.process` via
`providerFromConfig(resolvedConfig, resolvedProviders, moduleConfigs, status)`.
The resolved dependency providers are not inspected by any claim and are
elided here. -/
structure ProviderRepr where
  config : ProviderConfig
  moduleConfigs : List ModuleConfigRepr
  status : EnvironmentStatus

/--
Embedding of `ResolveProviderTask.process` (resolve-provider.ts lines 89-169):

1. resolve template strings against the provider context (`resolveTemplates`,
   abstracted as a function of the config);
2. validate against the plugin's own schema and re-assign `path`;
3. if a `configureProvider` handler exists, run it, re-validate its returned
   config against the plugin's own schema, re-assign `path`, and take its
   module configs (defaulting to `[]`);
4. validate the result sequentially against each base plugin's schema
   (`validateAgainstBases`);
5. ensure the environment is prepared and publish
   `{ config, moduleConfigs, status }`.

The `getEnvironmentStatus` / `prepareEnvironment` handlers are embedded as in
`ensurePrepared`.
-/
def process (plugin : GardenPlugin) (plugins : List GardenPlugin)
    (config : ProviderConfig) (projectRoot : String)
    (resolveTemplates : ProviderConfig → ProviderConfig)
    (statusHandler : EnvironmentStatus)
    (prepareHandler : Bool → EnvironmentStatus → PrepareResult)
    (forceInit : Bool) : Except GardenError ProviderRepr := do
  let resolvedConfig := resolveTemplates config
  let resolvedConfig ← validateConfig plugin resolvedConfig
  let resolvedConfig := { resolvedConfig with path := some projectRoot }
  let (resolvedConfig, moduleConfigs) ←
    match plugin.configureProvider with
    | none => pure (resolvedConfig, ([] : List ModuleConfigRepr))
    | some handler => do
      let configureOutput := handler resolvedConfig
      let c ← validateConfig plugin configureOutput.config
      pure ({ c with path := some projectRoot }, configureOutput.moduleConfigs.getD [])
  let bases ← getPluginBases plugin plugins
  let resolvedConfig ← validateAgainstBases bases resolvedConfig
  let statusAndFlag ← ensurePrepared forceInit statusHandler prepareHandler
  pure { config := resolvedConfig, moduleConfigs := moduleConfigs, status := statusAndFlag.1 }

end ResolveProviderTask

/-- A module version: `{ versionString, dependencyVersions, files }`
(`ModuleVersion` from `vcs/vcs`, with the shape given in §3 and §6 of the
spec: `dependencyVersions` maps dependency names to version strings). -/
structure ModuleVersion where
  versionString : String
  dependencyVersions : List (String × String) := []
  files : List String := []
deriving Repr, DecidableEq

/-- A test result (`TestResult` from `types/plugin/module/getTestResult`).
The wall-clock fields `startedAt` / `completedAt` are not modelled. -/
structure TestResult where
  moduleName : String := ""
  testName : String := ""
  command : List String := []
  version : String := ""
  success : Bool
  log : String := ""
deriving Repr, DecidableEq

/-- A test configuration (`TestConfig` from `config/test`): name, declared
dependencies, and an optional timeout.  The type-specific `spec` payload is
elided here (the exec plugin's own test configs carry it explicitly). -/
structure TestConfig where
  name : String
  dependencies : List String := []
  timeout : Option Nat := none
deriving Repr, DecidableEq

/-- A copy directive inside a build dependency: `{ source, target }`. -/
structure CopySpec where
  source : String
  target : String
deriving Repr, DecidableEq

/-- A build dependency declaration: `{ name, copy }`. -/
structure BuildDependencyConfig where
  name : String
  copy : List CopySpec := []
deriving Repr, DecidableEq

/-- The `build` section of a module config. -/
structure BuildConfig where
  dependencies : List BuildDependencyConfig := []
deriving Repr, DecidableEq

/-- The slice of a resolved `Module` used by the test task helpers: its name,
build section, test configs and version. -/
structure ModuleRepr where
  name : String
  build : BuildConfig := {}
  testConfigs : List TestConfig := []
  version : ModuleVersion := { versionString := "" }
deriving Repr, DecidableEq

/--
Modelled from the `minimatch` library (an external dependency of the test-task
file, not repository code): glob matching over patterns built from literal
characters, `?` (exactly one character) and `*` (any, possibly empty, sequence
of characters).  Test-name filters such as `"int*"` fall in this fragment.
-/
def globMatch : List Char → List Char → Bool
  | [], s => s.isEmpty
  | '*' :: ps, s => s.tails.any (fun t => globMatch ps t)
  | '?' :: ps, s =>
    match s with
    | [] => false
    | _ :: cs => globMatch ps cs
  | p :: ps, s =>
    match s with
    | [] => false
    | c :: cs => p == c && globMatch ps cs

/-- `minimatch(target, pattern)`. -/
def minimatch (target pattern : String) : Bool :=
  globMatch pattern.data target.data

namespace TestTask

/-- Embedding of `TestTask.getTestResult` (test-task file lines 434-447):
return `null` when `force` is set, otherwise the result stored for
`(module, testName, testVersion)` by the `getTestResult` action (embedded as
the `stored` argument). -/
def getTestResult (force : Bool) (stored : Option TestResult) : Option TestResult :=
  if force then none else stored

/-- The non-memoized path of `TestTask.process`: invoke the `testModule`
action; rethrow its error if it throws; throw a `TestError` carrying the
result log when the result is unsuccessful; otherwise return the result.
The Bool in the return value records that the handler was invoked. -/
def runTestModule (testModule : Except GardenError TestResult) :
    Except GardenError (TestResult × Bool) := do
  let result ← testModule
  if result.success then
    pure (result, true)
  else
    .error (.testError result.log)

/--
Embedding of `TestTask.process` (test-task file lines 375-432):

```
const testResult = await this.getTestResult()
if (testResult && testResult.success) { ...; return testResult }
... result = await actions.testModule({...}) ...
if (result.success) { ... } else { throw new TestError(result.log) }
return result
```

The `testModule` action is embedded as its outcome (`testModule`); the Bool in
the return value records whether the handler was invoked.
-/
def process (force : Bool) (stored : Option TestResult)
    (testModule : Except GardenError TestResult) :
    Except GardenError (TestResult × Bool) :=
  match getTestResult force stored with
  | some testResult =>
    if testResult.success then .ok (testResult, false)
    else runTestModule testModule
  | none => runTestModule testModule

end TestTask

/-- The data of a `TestTask` produced by `getTestTasks` via
`TestTask.factory`: the owning module's name, the selected test config, and
the `force` / `forceBuild` flags. -/
structure TestTaskRepr where
  moduleName : String
  testConfig : TestConfig
  force : Bool
  forceBuild : Bool
deriving Repr, DecidableEq

/--
Embedding of `getTestTasks` (test-task file lines 450-478):

```
const configs = module.testConfigs.filter(
  test => !filterNames || filterNames.length === 0
    || find(filterNames, (n: string) => minimatch(test.name, n)))
return Bluebird.map(configs, test => TestTask.factory({...}))
```
-/
def getTestTasks (module : ModuleRepr) (filterNames : Option (List String))
    (force : Bool := false) (forceBuild : Bool := false) : List TestTaskRepr :=
  let configs := module.testConfigs.filter (fun test =>
    match filterNames with
    | none => true
    | some fs => fs.isEmpty || fs.any (fun n => minimatch test.name n))
  configs.map (fun test =>
    { moduleName := module.name, testConfig := test, force := force, forceBuild := forceBuild })

/-- The slice of `ConfigGraph` used by `getTestVersion`:
`resolveDependencyModules(buildDependencies, testDependencies)` resolves the
named dependencies to modules (embedded as an abstract function). -/
structure ConfigGraph where
  resolveDependencyModules : List BuildDependencyConfig → List String → List ModuleRepr

/-- The slice of `Garden` used by `getTestVersion`:
`resolveVersion(moduleName, dependencyModules)` computes a version from the
module and the given dependency modules (embedded as an abstract function). -/
structure GardenRepr where
  resolveVersion : String → List ModuleRepr → ModuleVersion

/--
Embedding of `getTestVersion` (test-task file lines 483-491):

```
const moduleDeps = (await graph.resolveDependencyModules(module.build.dependencies, testConfig.dependencies))
  // Don't include the module itself in the dependencies here
  .filter(m => m.name !== module.name)
return garden.resolveVersion(module.name, moduleDeps)
```
-/
def getTestVersion (garden : GardenRepr) (graph : ConfigGraph)
    (module : ModuleRepr) (testConfig : TestConfig) : ModuleVersion :=
  let moduleDeps :=
    (graph.resolveDependencyModules module.build.dependencies testConfig.dependencies).filter
      (fun m => m.name != module.name)
  garden.resolveVersion module.name moduleDeps

/-! ## Build-version file (`vcs/vcs`, modelled from the spec)

The `readModuleVersionFile` / `writeModuleVersionFile` helpers live in
`vcs/vcs`, which is not among the sources; they are modelled from the spec,
§6: "**Build-version file format.** UTF-8 JSON, sorted keys,
`{ versionString: string, dependencyVersions: { [name]: string }, files:
string[] }`. Round-trips exactly."  The file contents are modelled at the
level of the JSON document. -/

/-- A JSON document (the fragment needed by the build-version file format:
strings, arrays and objects).  Object fields are an ordered list of
key/value pairs. -/
inductive Json where
  | str (s : String)
  | arr (items : List Json)
  | obj (fields : List (String × Json))
deriving Inhabited

/-- Lexicographic comparison of two character lists (the order used for
JSON key sorting). -/
def charListLe : List Char → List Char → Bool
  | [], _ => true
  | _ :: _, [] => false
  | a :: as, b :: bs =>
    if a < b then true
    else if b < a then false
    else charListLe as bs

/-- Lexicographic key order on strings. -/
def keyLe (a b : String) : Bool :=
  charListLe a.data b.data

/-- Key-sorting for JSON object fields (spec: "sorted keys"). -/
def sortByKey (fields : List (String × String)) : List (String × String) :=
  fields.insertionSort (fun a b => keyLe a.1 b.1 = true)

/-- Modelled from the spec: `writeModuleVersionFile(path, version)` writes the
version as a JSON document with sorted keys
(`dependencyVersions` < `files` < `versionString`), the `dependencyVersions`
object keyed and sorted by dependency name. -/
def writeModuleVersionFile (v : ModuleVersion) : Json :=
  .obj [
    ("dependencyVersions",
      .obj ((sortByKey v.dependencyVersions).map (fun p => (p.1, Json.str p.2)))),
    ("files", .arr (v.files.map Json.str)),
    ("versionString", .str v.versionString)]

/-- Decoder for the `dependencyVersions` object: every value must be a
string; any other shape is an outdated/invalid format. -/
def decodeDependencyVersions :
    List (String × Json) → Except GardenError (List (String × String))
  | [] => .ok []
  | (k, Json.str s) :: rest => do
    let tail ← decodeDependencyVersions rest
    pure ((k, s) :: tail)
  | (_, _) :: _ =>
    .error (.runtimeError "Invalid build-version file: dependency version is not a string")

/-- Decoder for the `files` array: every element must be a string. -/
def decodeFiles : List Json → Except GardenError (List String)
  | [] => .ok []
  | Json.str s :: rest => do
    let tail ← decodeFiles rest
    pure (s :: tail)
  | _ :: _ =>
    .error (.runtimeError "Invalid build-version file: file entry is not a string")

/-- Modelled from the spec: `readModuleVersionFile(path)` parses the JSON
document back into a `ModuleVersion`, failing on any other (e.g. outdated)
format. -/
def readModuleVersionFile (j : Json) : Except GardenError ModuleVersion :=
  match j with
  | .obj [("dependencyVersions", .obj deps), ("files", .arr files),
      ("versionString", .str vs)] => do
    let dependencyVersions ← decodeDependencyVersions deps
    let fileList ← decodeFiles files
    pure { versionString := vs, dependencyVersions := dependencyVersions, files := fileList }
  | _ => .error (.runtimeError "Unable to parse build-version file")

/-- Reading the build-version file at a path: the file may be missing
(`ENOENT`, embedded as `none`) or hold an arbitrary JSON document. -/
def readVersionFileAt (fileContent : Option Json) : Except GardenError ModuleVersion :=
  match fileContent with
  | none => .error (.runtimeError "ENOENT: no such file or directory")
  | some j => readModuleVersionFile j

/-! ## The `exec` plugin -/

/-- `ExecTestSpec`: a test of an exec module. -/
structure ExecTestSpec where
  name : String
  dependencies : List String := []
  timeout : Option Nat := none
  command : List String
  env : List (String × String) := []
deriving Repr, DecidableEq

/-- `ExecTaskSpec`: a task of an exec module. -/
structure ExecTaskSpec where
  name : String
  dependencies : List String := []
  timeout : Option Nat := none
  command : List String
  env : List (String × String) := []
deriving Repr, DecidableEq

/-- `ExecBuildSpec`: the build section of an exec module spec. -/
structure ExecBuildSpec where
  command : List String := []
deriving Repr, DecidableEq

/-- `ExecModuleSpec`.  The source field `local` is a Lean keyword and is
embedded as `localFlag`. -/
structure ExecModuleSpec where
  localFlag : Bool := false
  build : ExecBuildSpec := {}
  env : List (String × String) := []
  tasks : List ExecTaskSpec := []
  tests : List ExecTestSpec := []
deriving Repr, DecidableEq

/-- A task config produced by `configureExecModule`:
`{ name, dependencies, timeout, spec }`. -/
structure ExecTaskConfig where
  name : String
  dependencies : List String
  timeout : Option Nat
  spec : ExecTaskSpec
deriving Repr, DecidableEq

/-- A test config produced by `configureExecModule`:
`{ name, dependencies, spec, timeout }`. -/
structure ExecTestConfig where
  name : String
  dependencies : List String
  timeout : Option Nat
  spec : ExecTestSpec
deriving Repr, DecidableEq

/-- The module config handled by `configureExecModule`. -/
structure ExecModuleConfig where
  name : String
  build : BuildConfig := {}
  spec : ExecModuleSpec := {}
  taskConfigs : List ExecTaskConfig := []
  testConfigs : List ExecTestConfig := []
deriving Repr, DecidableEq

/-- JavaScript truthiness of the `copy` array, as tested by `!!d.copy` in
`configureExecModule`: an array value is truthy regardless of its contents,
so this is `true` even for an empty copy list. -/
def jsTruthy (_copy : List CopySpec) : Bool :=
  true

/-- The `ConfigurationError` message thrown by `configureExecModule`, with
the comma-joined dependency names interpolated. -/
def execCopyErrorMsg (moduleName deps : String) : String :=
  s!"Invalid exec module configuration: Module {moduleName} copies {deps}" ++
    "\n\nA local exec module cannot have a build dependency with a copy spec."

/--
Embedding of `configureExecModule` (exec plugin lines 108-149):

```
const buildDeps = moduleConfig.build.dependencies
if (moduleConfig.spec.local && buildDeps.some(d => d.copy.length > 0)) {
  const buildDependenciesWithCopySpec = buildDeps.filter(d => !!d.copy).map(d => d.name).join(", ")
  throw new ConfigurationError(...)
}
moduleConfig.spec = validateWithPath({ config: moduleConfig.spec, schema: execModuleSpecSchema, ... })
moduleConfig.taskConfigs = moduleConfig.spec.tasks.map(t => ({ name, dependencies, timeout, spec: t }))
moduleConfig.testConfigs = moduleConfig.spec.tests.map(t => ({ name, dependencies, spec: t, timeout }))
return moduleConfig
```

The schema validation `validateWithPath` (from `config/common`, not among the
sources) is abstracted as the `validateSpec` argument.
-/
def configureExecModule
    (validateSpec : ExecModuleSpec → Except GardenError ExecModuleSpec)
    (moduleConfig : ExecModuleConfig) : Except GardenError ExecModuleConfig :=
  let buildDeps := moduleConfig.build.dependencies
  if moduleConfig.spec.localFlag && buildDeps.any (fun d => d.copy.length > 0) then
    let buildDependenciesWithCopySpec :=
      String.intercalate ", " ((buildDeps.filter (fun d => jsTruthy d.copy)).map (fun d => d.name))
    .error (.configurationError
      (execCopyErrorMsg moduleConfig.name buildDependenciesWithCopySpec))
  else do
    let spec ← validateSpec moduleConfig.spec
    pure { moduleConfig with
      spec := spec
      taskConfigs := spec.tasks.map (fun t =>
        { name := t.name, dependencies := t.dependencies, timeout := t.timeout, spec := t })
      testConfigs := spec.tests.map (fun t =>
        { name := t.name, dependencies := t.dependencies, spec := t, timeout := t.timeout }) }

/-- `BuildStatus` returned by `getBuildStatus` handlers. -/
structure BuildStatus where
  ready : Bool
deriving Repr, DecidableEq

/--
Embedding of `getExecModuleBuildStatus` (exec plugin lines 151-166):

```
let builtVersion: ModuleVersion | null = null
try { builtVersion = await readModuleVersionFile(buildVersionFilePath) }
catch (_) { /* just ignore this error, can be caused by an outdated format */ }
if (builtVersion && builtVersion.versionString === module.version.versionString) {
  return { ready: true }
}
return { ready: false }
```

`fileContent` is the JSON document stored at the module's build-version file
path, or `none` when the file is missing.
-/
def getExecModuleBuildStatus (fileContent : Option Json)
    (currentVersion : ModuleVersion) : BuildStatus :=
  let builtVersion : Option ModuleVersion :=
    match readVersionFileAt fileContent with
    | .ok v => some v
    | .error _ => none
  match builtVersion with
  | some v =>
    if v.versionString == currentVersion.versionString then { ready := true }
    else { ready := false }
  | none => { ready := false }

/-- Observable outcome of a subprocess: its exit code and captured output
streams (which may be absent). -/
structure SpawnOutput where
  code : Int
  stdout : Option String := none
  stderr : Option String := none
deriving Repr, DecidableEq

/-- Modelled from the spec: the `spawn` helper (`util/util`, not among the
sources).  Per §7, a "subprocess nonzero exit outside ignore-error" is a
Runtime error, and the source comment in `runExecTask` states "the spawn call
throws on error so we can assume success if we made it this far".  With
`ignoreError: true` the outcome is returned regardless of exit code;
otherwise a nonzero exit code raises. -/
def spawn (outcome : SpawnOutput) (ignoreError : Bool) : Except GardenError SpawnOutput :=
  if !ignoreError && outcome.code != 0 then
    .error (.runtimeError s!"Command exited with code {outcome.code}")
  else
    .ok outcome

/-- `BuildResult` returned by `buildExecModule`: `fresh`/`buildLog` are set
only when a build command actually ran. -/
structure BuildResult where
  fresh : Option Bool := none
  buildLog : Option String := none
deriving Repr, DecidableEq

/--
Embedding of `buildExecModule` (exec plugin lines 168-191): when the module
declares a non-empty build command, spawn it (without `ignoreError`, so a
nonzero exit throws) and record `fresh: true` plus the concatenated output;
in every successful run, write the module's current version to the
build-version file (`writeModuleVersionFile(buildVersionFilePath,
module.version)`).  The returned pair is the `BuildResult` and the JSON
document written to the file.
-/
def buildExecModule (spec : ExecModuleSpec) (version : ModuleVersion)
    (outcome : SpawnOutput) : Except GardenError (BuildResult × Json) := do
  let output : BuildResult := {}
  let output ←
    if spec.build.command.length != 0 then do
      let res ← spawn outcome false
      pure { output with
        fresh := some true
        buildLog := some ((res.stdout.getD "") ++ (res.stderr.getD "")) }
    else
      pure output
  pure (output, writeModuleVersionFile version)

/--
Embedding of `testExecModule` (exec plugin lines 193-220): spawn the test
command with `ignoreError: true`, then report success exactly when the exit
code is 0, with the log the concatenation of stdout and stderr.
-/
def testExecModule (moduleName : String) (version : ModuleVersion)
    (testConfig : ExecTestConfig) (outcome : SpawnOutput) :
    Except GardenError TestResult := do
  let command := testConfig.spec.command
  let result ← spawn outcome true
  pure {
    moduleName := moduleName
    command := command
    testName := testConfig.name
    version := version.versionString
    success := result.code == 0
    log := (result.stdout.getD "") ++ (result.stderr.getD "") }

/-- `RunTaskResult` returned by `runExecTask`. -/
structure RunTaskResult where
  moduleName : String
  taskName : String
  command : List String
  version : String
  success : Bool
  log : String
  outputs : List (String × String)
deriving Repr, DecidableEq

/--
Embedding of `runExecTask` (exec plugin lines 222-255): spawn the task
command without `ignoreError` (so a nonzero exit throws), then return a
result with `success: true` unconditionally ("the spawn call throws on error
so we can assume success if we made it this far").
-/
def runExecTask (moduleName taskName : String) (version : ModuleVersion)
    (taskSpec : ExecTaskSpec) (outcome : SpawnOutput) :
    Except GardenError RunTaskResult := do
  let command := taskSpec.command
  let result ← spawn outcome false
  let output := (result.stdout.getD "") ++ (result.stderr.getD "")
  pure {
    moduleName := moduleName
    taskName := taskName
    command := command
    version := version.versionString
    success := true
    log := output
    outputs := [("log", output)] }

/-! ## Concrete instances

The provider-inheritance scenario from the unit tests: plugin `base-a`,
plugin `test-a` with `base: "base-a"`, plugin `test-b` with
`dependencies: ["base-a"]`, and providers configured for `test-a` and
`test-b`. -/

def baseAPlugin : GardenPlugin := { name := "base-a" }

def testAPlugin : GardenPlugin := { name := "test-a", base := some "base-a" }

def testBPlugin : GardenPlugin := { name := "test-b", dependencies := ["base-a"] }

def demoPlugins : List GardenPlugin := [baseAPlugin, testAPlugin, testBPlugin]

def demoRawConfigs : List ProviderConfig := [{ name := "test-a" }, { name := "test-b" }]

/-- A config schema that rejects configs carrying a key `extra` (as a joi
schema with `unknown(false)` would) and otherwise returns the config
unchanged. -/
def strictSchema : Schema :=
  ⟨fun c =>
    if c.extra.any (fun kv => kv.1 == "extra") then
      .error (.configurationError "key \"extra\" is not allowed")
    else .ok c⟩

/-- A config schema that applies a default, adding the key `extra` (as a joi
schema with a `default` on that key would). -/
def defaultingSchema : Schema :=
  ⟨fun c => .ok { c with extra := [("extra", "1")] }⟩

/-- A plugin whose own config schema is `strictSchema` and whose base is
`base-a`. -/
def strictPlugin : GardenPlugin :=
  { name := "test-a", base := some "base-a", configSchema := some strictSchema }

/-- The base plugin `base-a` with config schema `defaultingSchema`. -/
def defaultingBasePlugin : GardenPlugin :=
  { name := "base-a", configSchema := some defaultingSchema }

/-! ## Helper lemmas -/

theorem exceptBind_ok_iff {ε α β : Type _} (x : Except ε α) (f : α → Except ε β) (b : β) :
    (x >>= f) = .ok b ↔ ∃ a, x = .ok a ∧ f a = .ok b := by
  cases x <;> simp [Bind.bind, Except.bind]

theorem ensurePrepared_ok_ready {fi : Bool} {s0 : EnvironmentStatus}
    {prep : Bool → EnvironmentStatus → PrepareResult} {st : EnvironmentStatus} {b : Bool}
    (h : ResolveProviderTask.ensurePrepared fi s0 prep = .ok (st, b)) :
    st.ready = true := by
  unfold ResolveProviderTask.ensurePrepared at h
  dsimp only at h
  split at h
  · split at h
    · simp at h
    · next h2 =>
      cases h
      simpa using h2
  · split at h
    · simp at h
    · next h2 =>
      cases h
      simpa using h2

theorem providerMatches_eq (plugins : List GardenPlugin) (depName : String)
    (c : ProviderConfig)
    (h : ∃ ns, getPluginBaseNames c.name plugins = .ok ns) :
    ResolveProviderTask.providerMatches plugins depName c =
      .ok (ResolveProviderTask.matchesDep plugins depName c) := by
  obtain ⟨ns, hns⟩ := h
  unfold ResolveProviderTask.providerMatches ResolveProviderTask.matchesDep
  by_cases hname : (c.name == depName) = true
  · simp [hname]
  · rw [Bool.not_eq_true] at hname
    simp [hname, hns, Bind.bind, Except.bind, pure, Except.pure]

theorem matchedConfigs_eq_filter (plugins : List GardenPlugin) (depName : String)
    (raw : List ProviderConfig)
    (hres : ∀ c ∈ raw, ∃ ns, getPluginBaseNames c.name plugins = .ok ns) :
    ResolveProviderTask.matchedConfigs plugins depName raw =
      .ok (raw.filter (ResolveProviderTask.matchesDep plugins depName)) := by
  induction raw with
  | nil => rfl
  | cons c rest ih =>
    have h1 := providerMatches_eq plugins depName c (hres c (by simp))
    have h2 := ih (fun c' hc' => hres c' (by simp [hc']))
    unfold ResolveProviderTask.matchedConfigs
    rw [h1]
    simp only [Bind.bind, Except.bind, h2, List.filter_cons]
    by_cases hm : ResolveProviderTask.matchesDep plugins depName c = true <;>
      simp [hm, pure, Except.pure]

theorem dependencyTasksFor_eq (plugins : List GardenPlugin) (raw : List ProviderConfig)
    (selfName : String) (fi : Bool) (depName : String)
    (hres : ∀ c ∈ raw, ∃ ns, getPluginBaseNames c.name plugins = .ok ns) :
    ResolveProviderTask.dependencyTasksFor plugins raw selfName fi depName =
      (if raw.filter (ResolveProviderTask.matchesDep plugins depName) = [] then
        .error (.configurationError
          (s!"Missing provider dependency {depName} in configuration for provider " ++
            s!"{selfName}. Are you missing a provider configuration?"))
      else
        .ok ((raw.filter (ResolveProviderTask.matchesDep plugins depName)).map (fun c =>
          { plugin := findPlugin plugins depName, config := c, forceInit := fi }))) := by
  unfold ResolveProviderTask.dependencyTasksFor
  rw [matchedConfigs_eq_filter plugins depName raw hres]
  simp only [Bind.bind, Except.bind]
  by_cases hf : raw.filter (ResolveProviderTask.matchesDep plugins depName) = [] <;>
    simp [hf, List.length_eq_zero, pure, Except.pure]

theorem validateAgainstBases_eq_foldSchemas :
    ∀ (bases : List GardenPlugin) (c : ProviderConfig),
      ResolveProviderTask.validateAgainstBases bases c =
        ResolveProviderTask.foldSchemas (bases.filterMap (fun b => b.configSchema)) c := by
  intro bases
  induction bases with
  | nil => intro c; rfl
  | cons b rest ih =>
    intro c
    unfold ResolveProviderTask.validateAgainstBases
    cases hb : b.configSchema with
    | none => simp [List.filterMap_cons, hb, ih]
    | some s =>
      simp only [List.filterMap_cons, hb]
      unfold ResolveProviderTask.foldSchemas
      cases hv : s.validate (omitPath c) with
      | error e => simp [Bind.bind, Except.bind, hv]
      | ok c' => simp [Bind.bind, Except.bind, hv, ih]

/-! ## Claim theorems -/

/-- C2: For every provider resolution, `ensurePrepared` invokes the
`prepareEnvironment` handler if and only if `forceInit` was requested or the
`getEnvironmentStatus` handler returned `ready=false` (conjuncts 1-3: the
invocation flag is set exactly under that condition, the handler is not
consulted otherwise, and when it is consulted the result is determined by the
handler's returned status); if the status after preparation still has
`ready=false`, an error is raised (conjunct 3); hence every status published
by `ResolveProviderTask.process` has `ready=true` (conjuncts 1 and 4). -/
theorem resolveProvider_ensurePrepared_spec
    (fi : Bool) (s0 : EnvironmentStatus)
    (prep : Bool → EnvironmentStatus → PrepareResult) :
    (∀ st b, ResolveProviderTask.ensurePrepared fi s0 prep = .ok (st, b) →
      st.ready = true ∧ (b = true ↔ (fi = true ∨ s0.ready = false))) ∧
    (fi = false → s0.ready = true →
      ResolveProviderTask.ensurePrepared fi s0 prep = .ok (s0, false)) ∧
    ((fi = true ∨ s0.ready = false) →
      ResolveProviderTask.ensurePrepared fi s0 prep =
        (if (prep fi s0).status.ready then .ok ((prep fi s0).status, true)
         else .error (.pluginError
           "Provider reports status as not ready and could not prepare the configured environment."))) ∧
    (∀ (plugin : GardenPlugin) (plugins : List GardenPlugin) (config : ProviderConfig)
        (projectRoot : String) (rt : ProviderConfig → ProviderConfig)
        (p : ResolveProviderTask.ProviderRepr),
      ResolveProviderTask.process plugin plugins config projectRoot rt s0 prep fi = .ok p →
      p.status.ready = true) := by
  refine ⟨?_, ?_, ?_, ?_⟩
  · intro st b h
    refine ⟨ensurePrepared_ok_ready h, ?_⟩
    unfold ResolveProviderTask.ensurePrepared at h
    dsimp only at h
    split at h
    · next hcond =>
      split at h
      · simp at h
      · cases h
        simp only [Bool.or_eq_true, Bool.not_eq_true'] at hcond
        simpa using hcond
    · next hcond =>
      split at h
      · simp at h
      · cases h
        simp only [Bool.or_eq_true, Bool.not_eq_true'] at hcond
        simpa using hcond
  · intro hfi hs0
    simp [ResolveProviderTask.ensurePrepared, hfi, hs0]
  · intro hcond
    have hc : (fi || !s0.ready) = true := by
      rcases hcond with h | h <;> simp [h]
    unfold ResolveProviderTask.ensurePrepared
    dsimp only
    rw [if_pos hc]
    cases hps : (prep fi s0).status.ready <;> simp [hps]
  · intro plugin plugins config projectRoot rt p hp
    unfold ResolveProviderTask.process at hp
    rw [exceptBind_ok_iff] at hp
    obtain ⟨c1, -, hp⟩ := hp
    rcases hcp : plugin.configureProvider with _ | handler <;>
      rw [hcp] at hp <;> dsimp only at hp
    · simp only [pure_bind] at hp
      rw [exceptBind_ok_iff] at hp
      obtain ⟨bases, -, hp⟩ := hp
      rw [exceptBind_ok_iff] at hp
      obtain ⟨c2, -, hp⟩ := hp
      rw [exceptBind_ok_iff] at hp
      obtain ⟨⟨st, b⟩, hst, hp⟩ := hp
      simp only [pure, Except.pure, Except.ok.injEq] at hp
      subst hp
      exact ensurePrepared_ok_ready hst
    · rw [exceptBind_ok_iff] at hp
      obtain ⟨c, -, hp⟩ := hp
      simp only [pure_bind] at hp
      rw [exceptBind_ok_iff] at hp
      obtain ⟨bases, -, hp⟩ := hp
      rw [exceptBind_ok_iff] at hp
      obtain ⟨c2, -, hp⟩ := hp
      rw [exceptBind_ok_iff] at hp
      obtain ⟨⟨st, b⟩, hst, hp⟩ := hp
      simp only [pure, Except.pure, Except.ok.injEq] at hp
      subst hp
      exact ensurePrepared_ok_ready hst

/-- Witness for C2: a ready environment with `forceInit=false` is returned
as-is, without preparing. -/
theorem resolveProvider_ensurePrepared_spec_witness :
    ResolveProviderTask.ensurePrepared false ⟨true, [("foo", "bar")]⟩ (fun _ s => ⟨s⟩) =
      .ok (⟨true, [("foo", "bar")]⟩, false) :=
  (resolveProvider_ensurePrepared_spec false ⟨true, [("foo", "bar")]⟩ (fun _ s => ⟨s⟩)).2.1
    rfl rfl

/-- C6: `getExecModuleBuildStatus` returns `ready=true` exactly when the
build-version file is read and parsed successfully and its `versionString`
equals the module's current `versionString`; any read or parse failure is
swallowed and yields `ready=false` (the function is total and never
propagates the error). -/
theorem getExecModuleBuildStatus_swallows_errors
    (fileContent : Option Json) (currentVersion : ModuleVersion) :
    ((getExecModuleBuildStatus fileContent currentVersion).ready = true ↔
      ∃ v, readVersionFileAt fileContent = .ok v ∧
        v.versionString = currentVersion.versionString) ∧
    (∀ e, readVersionFileAt fileContent = .error e →
      getExecModuleBuildStatus fileContent currentVersion = { ready := false }) := by
  constructor
  · unfold getExecModuleBuildStatus
    cases hr : readVersionFileAt fileContent with
    | error e => simp
    | ok v =>
      dsimp only
      by_cases hv : v.versionString = currentVersion.versionString <;> simp [hv]
  · intro e he
    simp [getExecModuleBuildStatus, he]

/-- Witness for C6: a missing build-version file yields `ready=false`. -/
theorem getExecModuleBuildStatus_swallows_errors_witness :
    getExecModuleBuildStatus none { versionString := "v-1" } = { ready := false } :=
  (getExecModuleBuildStatus_swallows_errors none { versionString := "v-1" }).2
    (.runtimeError "ENOENT: no such file or directory") rfl

/-- C10: `testExecModule` never raises on a nonzero test exit (it spawns with
`ignoreError`): it returns a result with `success` exactly when the exit code
is 0 and `log` the concatenation of stdout and stderr; `runExecTask` returns
`success=true` unconditionally in any result it returns, a nonzero task exit
instead surfacing as an error raised by the spawn call. -/
theorem execTest_ignores_exit_but_task_raises
    (moduleName taskName : String) (version : ModuleVersion)
    (testConfig : ExecTestConfig) (taskSpec : ExecTaskSpec) (outcome : SpawnOutput) :
    (testExecModule moduleName version testConfig outcome =
      .ok { moduleName := moduleName, testName := testConfig.name,
            command := testConfig.spec.command, version := version.versionString,
            success := (outcome.code == 0),
            log := (outcome.stdout.getD "") ++ (outcome.stderr.getD "") }) ∧
    (∀ r, runExecTask moduleName taskName version taskSpec outcome = .ok r →
      r.success = true) ∧
    (outcome.code ≠ 0 →
      runExecTask moduleName taskName version taskSpec outcome =
        .error (.runtimeError s!"Command exited with code {outcome.code}")) := by
  refine ⟨rfl, ?_, ?_⟩
  · intro r h
    unfold runExecTask at h
    dsimp only at h
    rw [exceptBind_ok_iff] at h
    obtain ⟨s, -, h⟩ := h
    simp only [pure, Except.pure, Except.ok.injEq] at h
    subst h
    rfl
  · intro hc
    unfold runExecTask
    have hs : spawn outcome false = .error (.runtimeError s!"Command exited with code {outcome.code}") := by
      simp [spawn, hc]
    rw [hs]
    rfl

/-- Witness for C10: a task command exiting with code 1 makes `runExecTask`
raise, while the same exit code makes `testExecModule` report a failed (but
returned) result. -/
theorem execTest_ignores_exit_but_task_raises_witness :
    (runExecTask "module-a" "task-a" { versionString := "v-1" }
        { name := "task-a", command := ["false"] } { code := 1 } =
      .error (.runtimeError s!"Command exited with code {(1 : Int)}")) ∧
    (testExecModule "module-a" { versionString := "v-1" }
        { name := "t", dependencies := [], timeout := none,
          spec := { name := "t", command := ["false"] } } { code := 1 } =
      .ok { moduleName := "module-a", testName := "t", command := ["false"],
            version := "v-1", success := ((1 : Int) == 0), log := "" }) :=
  ⟨(execTest_ignores_exit_but_task_raises "module-a" "task-a" { versionString := "v-1" }
      { name := "t", dependencies := [], timeout := none,
        spec := { name := "t", command := ["false"] } }
      { name := "task-a", command := ["false"] } { code := 1 }).2.2 (by decide),
   (execTest_ignores_exit_but_task_raises "module-a" "task-a" { versionString := "v-1" }
      { name := "t", dependencies := [], timeout := none,
        spec := { name := "t", command := ["false"] } }
      { name := "task-a", command := ["false"] } { code := 1 }).1⟩

/-- C9: `getTestVersion` passes to `garden.resolveVersion` exactly the modules
resolved from the module's build dependencies together with the test config's
declared dependencies, minus the module itself — the dependency set handed to
the version resolver never contains a module named like the module. -/
theorem getTestVersion_excludes_module_itself
    (garden : GardenRepr) (graph : ConfigGraph) (module : ModuleRepr)
    (testConfig : TestConfig) :
    ∃ deps,
      getTestVersion garden graph module testConfig = garden.resolveVersion module.name deps ∧
      (∀ m ∈ deps, m.name ≠ module.name) ∧
      (∀ m, m ∈ deps ↔
        m ∈ graph.resolveDependencyModules module.build.dependencies testConfig.dependencies ∧
          m.name ≠ module.name) := by
  refine ⟨_, rfl, ?_, ?_⟩
  · intro m hm
    have h := List.mem_filter.mp hm
    simpa [bne_iff_ne] using h.2
  · intro m
    simp [List.mem_filter, bne_iff_ne]

/-- C4: `getTestTasks` creates a task exactly for the test configs whose name
glob-matches one of the filter patterns, all of them when the filter is absent
or empty; in particular the filter `"int*"` selects tests named `integration`
and `integ` but not `unit`. -/
theorem getTestTasks_glob_filter
    (module : ModuleRepr) (filterNames : Option (List String)) (force forceBuild : Bool) :
    (∀ t : TestConfig,
      ({ moduleName := module.name, testConfig := t, force := force, forceBuild := forceBuild } :
          TestTaskRepr) ∈ getTestTasks module filterNames force forceBuild ↔
        t ∈ module.testConfigs ∧
          (filterNames.getD [] = [] ∨
            ∃ n ∈ filterNames.getD [], minimatch t.name n = true)) ∧
    (getTestTasks
        { name := "module-a",
          testConfigs := [{ name := "unit" }, { name := "integration" }, { name := "integ" }] }
        (some ["int*"]) force forceBuild =
      [{ moduleName := "module-a", testConfig := { name := "integration" },
         force := force, forceBuild := forceBuild },
       { moduleName := "module-a", testConfig := { name := "integ" },
         force := force, forceBuild := forceBuild }]) := by
  constructor
  · intro t
    have hcond : ∀ (c : TestConfig),
        ((match filterNames with
          | none => true
          | some fs => fs.isEmpty || fs.any (fun n => minimatch c.name n)) = true) ↔
        (filterNames.getD [] = [] ∨ ∃ n ∈ filterNames.getD [], minimatch c.name n = true) := by
      intro c
      cases filterNames with
      | none => simp
      | some fs => cases fs <;> simp [List.any_eq_true]
    rw [← hcond t]
    simp [getTestTasks, List.mem_map, List.mem_filter, TestTaskRepr.mk.injEq]
  · rfl

/-- C1 counterexample: with `force=false` and a *stored but unsuccessful*
result in the cache, `TestTask.process` does not return the stored result —
it invokes the `testModule` handler (invocation flag `true`) and returns the
handler's result, which differs from the stored one.  The claim as stated
(any stored result short-circuits) is therefore false. -/
theorem testTask_process_cached_failure_counterexample :
    (TestTask.process false (some { success := false, log := "boom" })
        (.ok { success := true, log := "OK" }) =
      .ok ({ success := true, log := "OK" }, true)) ∧
    ({ success := false, log := "boom" } : TestResult) ≠ { success := true, log := "OK" } :=
  ⟨rfl, by decide⟩

/-- C1 (amended): with `force=false`, if the cache holds a *successful*
result for the test's name and version, `TestTask.process` returns it and the
`testModule` handler is not invoked (invocation flag `false`); a stored
unsuccessful result does not short-circuit; with `force=true` the stored
result is ignored and the handler is always invoked (the outcome is exactly
the handler run, whose results carry invocation flag `true`). -/
theorem testTask_process_memoizes_successful_results
    (force : Bool) (stored : Option TestResult)
    (handler : Except GardenError TestResult) :
    (force = false → ∀ r, stored = some r → r.success = true →
      TestTask.process force stored handler = .ok (r, false)) ∧
    (force = false → ∀ r, stored = some r → r.success = false →
      TestTask.process force stored handler = TestTask.runTestModule handler) ∧
    (force = true →
      TestTask.process force stored handler = TestTask.runTestModule handler) ∧
    (∀ r b, TestTask.runTestModule handler = .ok (r, b) → b = true) := by
  refine ⟨?_, ?_, ?_, ?_⟩
  · intro hf r hr hs
    subst hf; subst hr
    simp [TestTask.process, TestTask.getTestResult, hs]
  · intro hf r hr hs
    subst hf; subst hr
    simp [TestTask.process, TestTask.getTestResult, hs]
  · intro hf
    subst hf
    simp [TestTask.process, TestTask.getTestResult]
  · intro r b h
    unfold TestTask.runTestModule at h
    rw [exceptBind_ok_iff] at h
    obtain ⟨a, -, h⟩ := h
    by_cases hs : a.success = true
    · simp only [hs, if_true, pure, Except.pure, Except.ok.injEq, Prod.mk.injEq] at h
      exact h.2.symm
    · simp [hs] at h

/-- Witness for C1 (amended): a stored successful result is returned without
invoking the handler, even when the handler would fail. -/
theorem testTask_process_memoizes_successful_results_witness :
    TestTask.process false
        (some { moduleName := "module-a", testName := "unit", version := "v-1",
                success := true, log := "OK" })
        (.error (.testError "handler must not run")) =
      .ok ({ moduleName := "module-a", testName := "unit", version := "v-1",
             success := true, log := "OK" }, false) :=
  (testTask_process_memoizes_successful_results false
      (some { moduleName := "module-a", testName := "unit", version := "v-1",
              success := true, log := "OK" })
      (.error (.testError "handler must not run"))).1 rfl _ rfl rfl

/-- C5 counterexample: a local exec module with build dependencies `dep-a`
(empty copy list) and `dep-b` (non-empty copy list) is rejected, but the
error message names `dep-a, dep-b` — the filter `d => !!d.copy` is truthy for
every array, including the empty one — not exactly the offending `dep-b`.
The claim that the message names exactly the offending dependencies is
therefore false. -/
theorem configureExecModule_names_counterexample :
    (configureExecModule Except.ok
        { name := "module-a",
          build := { dependencies := [
            { name := "dep-a", copy := [] },
            { name := "dep-b", copy := [{ source := "src", target := "dst" }] }] },
          spec := { localFlag := true } } =
      .error (.configurationError (execCopyErrorMsg "module-a" "dep-a, dep-b"))) ∧
    execCopyErrorMsg "module-a" "dep-a, dep-b" ≠ execCopyErrorMsg "module-a" "dep-b" :=
  ⟨rfl, by decide⟩

/-- C5 (amended): `configureExecModule` raises a `ConfigurationError` if and
only if `spec.local` is true and at least one build dependency has a
non-empty copy list, and the error message names **all** build dependencies
(the source filters with `!!d.copy`, which is truthy for every array), not
only the offending ones; when `local` is false or every copy list is empty,
the spec is validated and the config returned without this error (any error
then comes from the schema validation itself). -/
theorem configureExecModule_local_copy_check
    (validateSpec : ExecModuleSpec → Except GardenError ExecModuleSpec)
    (moduleConfig : ExecModuleConfig) :
    ((moduleConfig.spec.localFlag = true ∧
        ∃ d ∈ moduleConfig.build.dependencies, d.copy ≠ []) →
      configureExecModule validateSpec moduleConfig = .error (.configurationError
        (execCopyErrorMsg moduleConfig.name
          (String.intercalate ", "
            (moduleConfig.build.dependencies.map (fun d => d.name)))))) ∧
    ((moduleConfig.spec.localFlag = false ∨
        ∀ d ∈ moduleConfig.build.dependencies, d.copy = []) →
      (∀ spec, validateSpec moduleConfig.spec = .ok spec →
        configureExecModule validateSpec moduleConfig = .ok { moduleConfig with
          spec := spec
          taskConfigs := spec.tasks.map (fun t =>
            { name := t.name, dependencies := t.dependencies, timeout := t.timeout, spec := t })
          testConfigs := spec.tests.map (fun t =>
            { name := t.name, dependencies := t.dependencies, spec := t, timeout := t.timeout }) }) ∧
      (∀ e, validateSpec moduleConfig.spec = .error e →
        configureExecModule validateSpec moduleConfig = .error e)) := by
  constructor
  · rintro ⟨hl, d, hd, hc⟩
    unfold configureExecModule
    dsimp only
    split
    · next =>
      simp only [jsTruthy, List.filter_true]
    · next hcondFalse =>
      exfalso
      apply hcondFalse
      simp only [hl, Bool.true_and, List.any_eq_true, decide_eq_true_eq]
      exact ⟨d, hd, List.length_pos.mpr hc⟩
  · intro hcond
    have hfalse : ∀ h : (moduleConfig.spec.localFlag &&
        moduleConfig.build.dependencies.any (fun d => decide (0 < d.copy.length))) = true,
        False := by
      intro h
      simp only [Bool.and_eq_true, List.any_eq_true, decide_eq_true_eq] at h
      obtain ⟨hl, d, hd, hlen⟩ := h
      rcases hcond with hl' | hall
      · rw [hl'] at hl; cases hl
      · rw [hall d hd] at hlen; simp at hlen
    constructor
    · intro spec hspec
      unfold configureExecModule
      dsimp only
      split
      · next h => exact absurd h (fun h => hfalse h)
      · rw [hspec]
        rfl
    · intro e hspec
      unfold configureExecModule
      dsimp only
      split
      · next h => exact absurd h (fun h => hfalse h)
      · rw [hspec]
        rfl

/-- Witness for C5 (amended): a non-local module with a copy-carrying build
dependency passes the check and gets its task/test configs populated. -/
theorem configureExecModule_local_copy_check_witness :
    configureExecModule Except.ok
        { name := "module-b",
          build := { dependencies := [
            { name := "dep-b", copy := [{ source := "src", target := "dst" }] }] },
          spec := { localFlag := false,
                    tests := [{ name := "unit", command := ["true"] }] } } =
      .ok { name := "module-b",
            build := { dependencies := [
              { name := "dep-b", copy := [{ source := "src", target := "dst" }] }] },
            spec := { localFlag := false,
                      tests := [{ name := "unit", command := ["true"] }] },
            taskConfigs := [],
            testConfigs := [{ name := "unit", dependencies := [], timeout := none,
                              spec := { name := "unit", command := ["true"] } }] } :=
  ((configureExecModule_local_copy_check Except.ok
      { name := "module-b",
        build := { dependencies := [
          { name := "dep-b", copy := [{ source := "src", target := "dst" }] }] },
        spec := { localFlag := false,
                  tests := [{ name := "unit", command := ["true"] }] } }).2
    (Or.inl rfl)).1 _ rfl

/-- C3: `ResolveProviderTask.getDependencies` yields, for every dependency
name `D` of the plugin, one resolve-provider task per configured provider
whose name equals `D` or whose base chain contains `D` (the `matchesDep`
predicate); if for some `D` no configured provider matches, a
`ConfigurationError` is raised.  The base-name resolution of each configured
provider is assumed to succeed (its plugin is loaded, base chains resolve),
as holds in any loadable project. -/
theorem resolveProvider_getDependencies_matches
    (plugins : List GardenPlugin) (raw : List ProviderConfig) (selfName : String)
    (fi : Bool) (depNames : List String)
    (hres : ∀ c ∈ raw, ∃ ns, getPluginBaseNames c.name plugins = .ok ns) :
    ((∀ d ∈ depNames, raw.filter (ResolveProviderTask.matchesDep plugins d) ≠ []) →
      ResolveProviderTask.getDependencies plugins raw selfName fi depNames =
        .ok (depNames.flatMap (fun d =>
          (raw.filter (ResolveProviderTask.matchesDep plugins d)).map (fun c =>
            { plugin := findPlugin plugins d, config := c, forceInit := fi })))) ∧
    ((∃ d ∈ depNames, raw.filter (ResolveProviderTask.matchesDep plugins d) = []) →
      ∃ msg, ResolveProviderTask.getDependencies plugins raw selfName fi depNames =
        .error (.configurationError msg)) := by
  constructor
  · intro hall
    induction depNames with
    | nil => rfl
    | cons d ds ih =>
      have hd := hall d (by simp)
      have hds := ih (fun d' hd' => hall d' (by simp [hd']))
      unfold ResolveProviderTask.getDependencies
      rw [dependencyTasksFor_eq plugins raw selfName fi d hres, if_neg hd]
      simp only [Bind.bind, Except.bind, hds, List.flatMap_cons, pure, Except.pure]
  · intro hex
    induction depNames with
    | nil => simp at hex
    | cons d ds ih =>
      unfold ResolveProviderTask.getDependencies
      rw [dependencyTasksFor_eq plugins raw selfName fi d hres]
      by_cases hd : raw.filter (ResolveProviderTask.matchesDep plugins d) = []
      · rw [if_pos hd]
        exact ⟨_, rfl⟩
      · rw [if_neg hd]
        rcases hex with ⟨d', hd', hfilter⟩
        rcases List.mem_cons.mp hd' with rfl | hmem
        · exact absurd hfilter hd
        · obtain ⟨msg, hmsg⟩ := ih ⟨d', hmem, hfilter⟩
          refine ⟨msg, ?_⟩
          simp only [Bind.bind, Except.bind, hmsg]

/-- Witness for C3: in the unit-test scenario (`test-a` inherits from
`base-a`, `test-b` depends on `base-a`), resolving `test-b`'s dependency
`base-a` yields exactly one task, for the configured provider `test-a`,
matched through its base chain. -/
theorem resolveProvider_getDependencies_matches_witness :
    ResolveProviderTask.getDependencies demoPlugins demoRawConfigs "test-b" false ["base-a"] =
      .ok [{ plugin := findPlugin demoPlugins "base-a", config := { name := "test-a" },
             forceInit := false }] := by
  have h := (resolveProvider_getDependencies_matches demoPlugins demoRawConfigs
      "test-b" false ["base-a"] ?hres).1 ?hall
  · rw [h]
    rfl
  case hres =>
    intro c hc
    rcases List.mem_cons.mp hc with rfl | hc
    · exact ⟨["base-a"], rfl⟩
    · rcases List.mem_cons.mp hc with rfl | hc
      · exact ⟨[], rfl⟩
      · simp at hc
  case hall =>
    intro d hd
    rcases List.mem_cons.mp hd with rfl | hd
    · decide
    · simp at hd

/-- C7: Writing a `ModuleVersion` with `writeModuleVersionFile` and reading
the same file back with `readModuleVersionFile` yields the original
`ModuleVersion` (exact round-trip); in particular, after a successful
`buildExecModule` run, reading the build-version file it wrote yields the
module's current version.  The `dependencyVersions` map invariant (entries
keyed and sorted by dependency name) is the hypothesis under which the list
representation round-trips losslessly. -/
theorem writeModuleVersionFile_roundTrip (v : ModuleVersion)
    (hsorted : v.dependencyVersions.Sorted (fun a b => keyLe a.1 b.1 = true)) :
    (readModuleVersionFile (writeModuleVersionFile v) = .ok v) ∧
    (∀ (spec : ExecModuleSpec) (outcome : SpawnOutput) (res : BuildResult) (file : Json),
      buildExecModule spec v outcome = .ok (res, file) →
      readModuleVersionFile file = .ok v) := by
  have hsort : sortByKey v.dependencyVersions = v.dependencyVersions :=
    hsorted.insertionSort_eq
  have hdeps : ∀ l : List (String × String),
      decodeDependencyVersions (l.map (fun p => (p.1, Json.str p.2))) = .ok l := by
    intro l
    induction l with
    | nil => rfl
    | cons p rest ih =>
      obtain ⟨k, s⟩ := p
      unfold decodeDependencyVersions
      rw [List.map_cons] at *
      simp only [ih, Bind.bind, Except.bind, pure, Except.pure]
  have hfiles : ∀ l : List String, decodeFiles (l.map Json.str) = .ok l := by
    intro l
    induction l with
    | nil => rfl
    | cons s rest ih =>
      unfold decodeFiles
      simp only [List.map_cons, ih, Bind.bind, Except.bind, pure, Except.pure]
  have h1 : readModuleVersionFile (writeModuleVersionFile v) = .ok v := by
    unfold writeModuleVersionFile readModuleVersionFile
    rw [hsort]
    simp only [hdeps, hfiles, Bind.bind, Except.bind, pure, Except.pure]
  refine ⟨h1, ?_⟩
  intro spec outcome res file h
  unfold buildExecModule at h
  dsimp only at h
  split at h
  · rw [exceptBind_ok_iff] at h
    obtain ⟨s, -, h⟩ := h
    simp only [pure, Except.pure, Bind.bind, Except.bind, Except.ok.injEq, Prod.mk.injEq] at h
    rw [← h.2]
    exact h1
  · simp only [pure, Except.pure, Bind.bind, Except.bind, Except.ok.injEq, Prod.mk.injEq] at h
    rw [← h.2]
    exact h1

/-- Witness for C7: a concrete version with two (sorted) dependency versions
and two files survives the write/read round-trip. -/
theorem writeModuleVersionFile_roundTrip_witness :
    readModuleVersionFile (writeModuleVersionFile
        { versionString := "v-abc123",
          dependencyVersions := [("dep-a", "v-1"), ("dep-b", "v-2")],
          files := ["garden.yml", "main.go"] }) =
      .ok { versionString := "v-abc123",
            dependencyVersions := [("dep-a", "v-1"), ("dep-b", "v-2")],
            files := ["garden.yml", "main.go"] } :=
  (writeModuleVersionFile_roundTrip
      { versionString := "v-abc123",
        dependencyVersions := [("dep-a", "v-1"), ("dep-b", "v-2")],
        files := ["garden.yml", "main.go"] } (by decide)).1

/-- C8 counterexample: the published provider config need not satisfy all
the schemas it was validated against.  Plugin `test-a` has a schema rejecting
any config with key `extra`; its base `base-a` has a schema that adds
`extra` as a default.  `process` succeeds and publishes the base-validated
config carrying `extra` — which the plugin's own schema rejects.  The claim's
conclusion "therefore satisfies all of those schemas" is thus false. -/
theorem resolveProvider_satisfies_all_counterexample :
    (ResolveProviderTask.process strictPlugin [strictPlugin, defaultingBasePlugin]
        { name := "test-a" } "/project" id ⟨true, []⟩ (fun _ s => ⟨s⟩) false =
      .ok { config := { name := "test-a", path := none, extra := [("extra", "1")] },
            moduleConfigs := [], status := ⟨true, []⟩ }) ∧
    (strictSchema.validate
        (omitPath { name := "test-a", path := none, extra := [("extra", "1")] }) =
      .error (.configurationError "key \"extra\" is not allowed")) :=
  ⟨rfl, rfl⟩

/-- C8 (amended): for every provider whose plugin has a base chain,
`ResolveProviderTask.process` validates the resolved config first against the
plugin's own config schema (with the optional `configureProvider` round,
captured by `configuredConfig`) and then, in order, against the config schema
of every plugin in the base chain, skipping bases that declare no schema
(`validateAgainstBases` equals the sequential `foldSchemas` over exactly the
declared base schemas); the published provider config is the output of the
final validation.  It satisfies the last schema applied, but not necessarily
all of them, since a later validation may transform the config. -/
theorem resolveProvider_validation_pipeline
    (plugin : GardenPlugin) (plugins : List GardenPlugin) (config : ProviderConfig)
    (projectRoot : String) (rt : ProviderConfig → ProviderConfig)
    (sh : EnvironmentStatus) (ph : Bool → EnvironmentStatus → PrepareResult) (fi : Bool) :
    (∀ (bases : List GardenPlugin) (c : ProviderConfig),
      ResolveProviderTask.validateAgainstBases bases c =
        ResolveProviderTask.foldSchemas (bases.filterMap (fun b => b.configSchema)) c) ∧
    (∀ p, ResolveProviderTask.process plugin plugins config projectRoot rt sh ph fi = .ok p →
      ∃ cm mc bases,
        ResolveProviderTask.configuredConfig plugin (rt config) projectRoot = .ok (cm, mc) ∧
        getPluginBases plugin plugins = .ok bases ∧
        ResolveProviderTask.foldSchemas (bases.filterMap (fun b => b.configSchema)) cm =
          .ok p.config ∧
        p.moduleConfigs = mc) := by
  refine ⟨validateAgainstBases_eq_foldSchemas, ?_⟩
  intro p hp
  unfold ResolveProviderTask.process at hp
  rw [exceptBind_ok_iff] at hp
  obtain ⟨c1, hc1, hp⟩ := hp
  rcases hcp : plugin.configureProvider with _ | handler <;>
    rw [hcp] at hp <;> dsimp only at hp
  · simp only [pure_bind] at hp
    rw [exceptBind_ok_iff] at hp
    obtain ⟨bases, hbases, hp⟩ := hp
    rw [exceptBind_ok_iff] at hp
    obtain ⟨c2, hc2, hp⟩ := hp
    rw [exceptBind_ok_iff] at hp
    obtain ⟨⟨st, b⟩, -, hp⟩ := hp
    simp only [pure, Except.pure, Except.ok.injEq] at hp
    subst hp
    refine ⟨{ c1 with path := some projectRoot }, [], bases, ?_, hbases, ?_, rfl⟩
    · unfold ResolveProviderTask.configuredConfig
      rw [hc1]
      simp [hcp, Bind.bind, Except.bind, pure, Except.pure]
    · rw [← validateAgainstBases_eq_foldSchemas]
      exact hc2
  · rw [exceptBind_ok_iff] at hp
    obtain ⟨c1', hc1', hp⟩ := hp
    simp only [pure_bind] at hp
    rw [exceptBind_ok_iff] at hp
    obtain ⟨bases, hbases, hp⟩ := hp
    rw [exceptBind_ok_iff] at hp
    obtain ⟨c2, hc2, hp⟩ := hp
    rw [exceptBind_ok_iff] at hp
    obtain ⟨⟨st, b⟩, -, hp⟩ := hp
    simp only [pure, Except.pure, Except.ok.injEq] at hp
    subst hp
    refine ⟨{ c1' with path := some projectRoot },
      (handler { c1 with path := some projectRoot }).moduleConfigs.getD [], bases,
      ?_, hbases, ?_, rfl⟩
    · unfold ResolveProviderTask.configuredConfig
      rw [hc1]
      simp only [hcp, Bind.bind, Except.bind]
      rw [hc1']
      rfl
    · rw [← validateAgainstBases_eq_foldSchemas]
      exact hc2

/-- Witness for C8 (amended): in the counterexample scenario, the published
config is exactly the output of folding the base schema over the
own-schema-validated config. -/
theorem resolveProvider_validation_pipeline_witness :
    ResolveProviderTask.configuredConfig strictPlugin { name := "test-a" } "/project" =
      .ok ({ name := "test-a", path := some "/project" }, []) ∧
    ResolveProviderTask.foldSchemas
        ([strictPlugin, defaultingBasePlugin].filterMap (fun b => b.configSchema) |>.tail)
        { name := "test-a", path := some "/project" } =
      .ok { name := "test-a", path := none, extra := [("extra", "1")] } := by
  have h := ((resolveProvider_validation_pipeline strictPlugin
      [strictPlugin, defaultingBasePlugin] { name := "test-a" } "/project" id
      ⟨true, []⟩ (fun _ s => ⟨s⟩) false).2
    { config := { name := "test-a", path := none, extra := [("extra", "1")] },
      moduleConfigs := [], status := ⟨true, []⟩ } rfl)
  obtain ⟨cm, mc, bases, hcm, hbases, hfold, -⟩ := h
  have e1 : (Except.ok
      (({ name := "test-a", path := some "/project", extra := [] } : ProviderConfig),
        ([] : List ModuleConfigRepr)) : Except GardenError _) = .ok (cm, mc) := by
    rw [← hcm]
    rfl
  simp only [Except.ok.injEq, Prod.mk.injEq] at e1
  obtain ⟨hcm', hmc⟩ := e1
  have e2 : (Except.ok [defaultingBasePlugin] : Except GardenError _) = .ok bases := by
    rw [← hbases]
    rfl
  simp only [Except.ok.injEq] at e2
  subst hcm'
  subst hmc
  subst e2
  exact ⟨rfl, hfold⟩

end Garden
